import Mathlib

/-!
Verification of the tele-oximeter telemetry pipeline.

Shallow embedding of the two source files:
* `scripts/device_connect_and_parse.py` — frame decoding (`notification_handler`),
  the shared reading buffer and periodic flush loop (`db_writer`), and the
  orchestrator (`main`).
* `backend/src/app.py` — session creation (`create_session`) and the retrieval
  endpoint (`get_data`).

Python byte frames are `List Nat`, Python strings are `List Char`, the Supabase
tables are explicit lists of rows, and the cooperative-concurrency pipeline is a
step function on an explicit state.
-/

namespace TeleOximeter

/-- One decoded telemetry sample, as built by `notification_handler`
(`device_connect_and_parse.py` lines 90–95): the dict
`\x7bsession_id, timestamp, spo2, pulse\x7d`. -/
structure Reading where
  session_id : Nat
  timestamp : Nat
  spo2 : Nat
  pulse : Nat
deriving DecidableEq, Repr

/-- Python list indexing `raw[i]`: returns the element or raises `IndexError`
(modelled as `.error ()`). -/
def idx (raw : List Nat) (i : Nat) : Except Unit Nat :=
  match raw.get? i with
  | some b => Except.ok b
  | none => Except.error ()

/-- Byte `i` of a frame known to be long enough (default 0 is never reached at
the indices the decoder uses once `19 ≤ raw.length`). -/
def byte (raw : List Nat) (i : Nat) : Nat := raw.getD i 0

/-- Exception-aware embedding of the parse in `notification_handler`
(lines 82–95): the early return for `len(raw) < 19`, then the guard
`raw[18] == 255 and not (raw[15] == 255 and raw[16] == 127 and raw[17] == 255)`
with Python's left-to-right short-circuit evaluation, every index access
fallible. Returns the `(spo2, pulse)` pair on a successful decode. -/
def decodeFrameE (raw : List Nat) : Except Unit (Option (Nat × Nat)) :=
  if raw.length < 19 then Except.ok none
  else
    match idx raw 18 with
    | Except.error e => Except.error e
    | Except.ok b18 =>
      if b18 = 255 then
        match idx raw 15, idx raw 16, idx raw 17 with
        | Except.ok b15, Except.ok b16, Except.ok b17 =>
          if b15 = 255 ∧ b16 = 127 ∧ b17 = 255 then Except.ok none
          else Except.ok (some (b16, b17))
        | Except.error e, _, _ => Except.error e
        | _, Except.error e, _ => Except.error e
        | _, _, Except.error e => Except.error e
      else Except.ok none

/-- Total form of the frame decoder: same tests as `decodeFrameE`, with the
index accesses read off directly (they are in bounds once `19 ≤ raw.length`). -/
def decodeFrame (raw : List Nat) : Option (Nat × Nat) :=
  if raw.length < 19 then none
  else if byte raw 18 = 255 then
    if byte raw 15 = 255 ∧ byte raw 16 = 127 ∧ byte raw 17 = 255 then none
    else some (byte raw 16, byte raw 17)
  else none

/-- `notification_handler` (lines 77–98) as a buffer transformer: on a
successful decode it appends one reading built from the frame bytes, the
current session id and the wall-clock timestamp; otherwise it leaves the
buffer unchanged. -/
def notification_handler (sid ts : Nat) (buf : List Reading) (raw : List Nat) :
    List Reading :=
  match decodeFrame raw with
  | some (spo2, hr) => buf ++ [⟨sid, ts, spo2, hr⟩]
  | none => buf

lemma idx_eq_ok_of_lt (raw : List Nat) (i : Nat) (h : i < raw.length) :
    idx raw i = Except.ok (byte raw i) := by
  unfold idx byte
  rw [List.get?_eq_get h]
  simp [List.getD_eq_getElem, h]

/-- The checked decoder never raises: it always agrees with the total decoder. -/
lemma decodeFrameE_eq_ok (raw : List Nat) :
    decodeFrameE raw = Except.ok (decodeFrame raw) := by
  unfold decodeFrameE decodeFrame
  by_cases hlen : raw.length < 19
  · simp [hlen]
  · have h18 : 18 < raw.length := by omega
    have h15 : 15 < raw.length := by omega
    have h16 : 16 < raw.length := by omega
    have h17 : 17 < raw.length := by omega
    rw [idx_eq_ok_of_lt raw 18 h18, idx_eq_ok_of_lt raw 15 h15,
      idx_eq_ok_of_lt raw 16 h16, idx_eq_ok_of_lt raw 17 h17]
    by_cases hb18 : byte raw 18 = 255
    · by_cases hsent : byte raw 15 = 255 ∧ byte raw 16 = 127 ∧ byte raw 17 = 255
      · simp [hlen, hb18, hsent]
      · simp [hlen, hb18, hsent]
    · simp [hlen, hb18]

/-- C1: the decoder produces a reading iff the frame has length ≥ 19, byte 18
equals 255 and the triplet at indices 15–17 is not (255, 127, 255); on success
the reading carries byte 16 as `spo2` and byte 17 as `pulse` and is appended to
the buffer; in every other case no reading is produced and the buffer is
unchanged. -/
theorem notification_handler_decode_iff (sid ts : Nat) (buf : List Reading)
    (raw : List Nat) :
    if 19 ≤ raw.length ∧ byte raw 18 = 255 ∧
        ¬ (byte raw 15 = 255 ∧ byte raw 16 = 127 ∧ byte raw 17 = 255) then
      decodeFrame raw = some (byte raw 16, byte raw 17) ∧
      notification_handler sid ts buf raw =
        buf ++ [⟨sid, ts, byte raw 16, byte raw 17⟩]
    else
      decodeFrame raw = none ∧ notification_handler sid ts buf raw = buf := by
  unfold notification_handler decodeFrame
  by_cases hlen : raw.length < 19
  · have hcond : ¬ (19 ≤ raw.length ∧ byte raw 18 = 255 ∧
        ¬ (byte raw 15 = 255 ∧ byte raw 16 = 127 ∧ byte raw 17 = 255)) := by
      intro h; omega
    simp [hlen, hcond]
  · have hge : 19 ≤ raw.length := by omega
    by_cases hb18 : byte raw 18 = 255
    · by_cases hsent : byte raw 15 = 255 ∧ byte raw 16 = 127 ∧ byte raw 17 = 255
      · simp [hlen, hb18, hsent, hge]
      · simp [hlen, hb18, hsent, hge]
    · simp [hlen, hb18, hge]

/-- C5: the decoder never fails with an exception — the checked evaluation
(every index access fallible) always returns `ok` — and the handler's only
effect is at most one buffer append. -/
theorem notification_handler_total (sid ts : Nat) (buf : List Reading)
    (raw : List Nat) :
    decodeFrameE raw = Except.ok (decodeFrame raw) ∧
    (notification_handler sid ts buf raw = buf ∨
      ∃ r, notification_handler sid ts buf raw = buf ++ [r]) := by
  refine ⟨decodeFrameE_eq_ok raw, ?_⟩
  unfold notification_handler
  cases h : decodeFrame raw with
  | none => exact Or.inl rfl
  | some p => exact Or.inr ⟨⟨sid, ts, p.1, p.2⟩, rfl⟩

/-- The reading buffer (`data_buffer`). `append` is the one mutation performed
by `notification_handler` (line 90); a successful flush sets `data_buffer = []`
(line 112), so a drain returns the whole contents and the emptied buffer. -/
def bufferAppend (b : List Reading) (r : Reading) : List Reading := b ++ [r]

/-- A successful `db_writer` cycle takes the whole buffer as one batch and
leaves the buffer empty (lines 110–112). -/
def drain_all (b : List Reading) : List Reading × List Reading := (b, [])

/-- One atomic unit of the cooperative pipeline: a `notification_handler`
append, or one `db_writer` wake whose insert either succeeds or raises. -/
inductive Step where
  | append (r : Reading)
  | flush (ok : Bool)
deriving DecidableEq, Repr

/-- Pipeline state: the shared `data_buffer` plus the log of every batch
submitted to `supabase.table('health_data').insert`, with its outcome. -/
structure PipelineState where
  buffer : List Reading
  attempts : List (List Reading × Bool)
deriving DecidableEq, Repr

/-- One step of the pipeline, from `device_connect_and_parse.py`:
an append adds the reading at the end of `data_buffer` (line 90); a `db_writer`
wake does nothing on an empty buffer (line 107), and otherwise submits the
whole buffer as one batch — clearing the buffer only when the insert succeeds
(line 112); on failure the clearing line is skipped, so the buffer is kept
(lines 113–114). There is no await between the insert and the clear, so the
cycle is one atomic step of the cooperative schedule. -/
def pipelineStep (s : PipelineState) : Step → PipelineState
  | Step.append r => { s with buffer := bufferAppend s.buffer r }
  | Step.flush ok =>
    if s.buffer = [] then s
    else if ok then
      { buffer := [], attempts := s.attempts ++ [(s.buffer, true)] }
    else
      { s with attempts := s.attempts ++ [(s.buffer, false)] }

/-- Run the pipeline from the initial state (`data_buffer = []`, nothing
submitted) through an arbitrary interleaving of appends and flush wakes. -/
def runPipeline (steps : List Step) : PipelineState :=
  steps.foldl pipelineStep ⟨[], []⟩

/-- The readings decoded (appended) during a run, in arrival order. -/
def appendedOf : List Step → List Reading
  | [] => []
  | Step.append r :: ss => r :: appendedOf ss
  | Step.flush _ :: ss => appendedOf ss

/-- The batches whose insert succeeded, in submission order. -/
def successfulBatches (s : PipelineState) : List (List Reading) :=
  (s.attempts.filter (fun a => a.2 = true)).map Prod.fst

lemma pipelineStep_inv (s : PipelineState) (st : Step) :
    (successfulBatches (pipelineStep s st)).flatten ++ (pipelineStep s st).buffer
      = (successfulBatches s).flatten ++ s.buffer ++ appendedOf [st] := by
  cases st with
  | append r =>
    simp [pipelineStep, successfulBatches, bufferAppend, appendedOf]
  | flush ok =>
    by_cases hb : s.buffer = []
    · simp [pipelineStep, hb, appendedOf]
    · cases ok with
      | true => simp [pipelineStep, hb, successfulBatches, appendedOf]
      | false => simp [pipelineStep, hb, successfulBatches, appendedOf]

lemma foldl_pipeline_inv (steps : List Step) (s : PipelineState) :
    (successfulBatches (steps.foldl pipelineStep s)).flatten
        ++ (steps.foldl pipelineStep s).buffer
      = (successfulBatches s).flatten ++ s.buffer ++ appendedOf steps := by
  induction steps generalizing s with
  | nil => simp [appendedOf]
  | cons st ss ih =>
    rw [List.foldl_cons, ih (pipelineStep s st)]
    have h := pipelineStep_inv s st
    cases st with
    | append r =>
      simp only [appendedOf] at h ⊢
      rw [h]
      simp
    | flush ok =>
      simp only [appendedOf] at h ⊢
      rw [h]
      simp [appendedOf]

/-- C3: buffer invariant under every interleaving of appends and flush wakes:
the successful batches, in order, followed by the current buffer are exactly
the readings appended so far, in order — so the buffer holds precisely the
readings decoded since the last successful flush, nothing is dropped without
being part of a successful submission, and no reading lands in two successful
drains. -/
theorem pipeline_buffer_invariant (steps : List Step) :
    (successfulBatches (runPipeline steps)).flatten ++ (runPipeline steps).buffer
      = appendedOf steps := by
  unfold runPipeline
  rw [foldl_pipeline_inv]
  simp [successfulBatches]

lemma foldl_appends (rs : List Reading) (s : PipelineState) :
    (rs.map Step.append).foldl pipelineStep s
      = { s with buffer := s.buffer ++ rs } := by
  induction rs generalizing s with
  | nil => simp
  | cons r rs ih =>
    simp only [List.map_cons, List.foldl_cons]
    rw [ih]
    simp [pipelineStep, bufferAppend]

/-- A concrete reading used in counterexamples and witnesses. -/
def r0 : Reading := ⟨1, 100, 98, 72⟩

/-- C2 counterexample: append one reading, let the flush's insert fail, then
let the next flush succeed. After the failed cycle the batch is still in the
buffer (not discarded), and its reading is submitted again in the later
(successful) flush — refuting both halves of the claim. -/
theorem db_writer_failed_batch_not_discarded :
    (runPipeline [Step.append r0, Step.flush false]).buffer = [r0] ∧
    (runPipeline [Step.append r0, Step.flush false, Step.flush true]).attempts
      = [([r0], false), ([r0], true)] := by
  constructor <;> rfl

/-- C2 amended: on a failed insert the `db_writer` cycle leaves the buffer
unchanged (the batch is retained, not discarded), records the failed attempt,
and the retained readings are re-submitted — as the prefix of the batch of the
next successful flush, after any readings appended in between. -/
theorem db_writer_failed_batch_retried (s : PipelineState) (rs : List Reading)
    (h : s.buffer ≠ []) :
    (pipelineStep s (Step.flush false)).buffer = s.buffer ∧
    (pipelineStep s (Step.flush false)).attempts
      = s.attempts ++ [(s.buffer, false)] ∧
    (pipelineStep ((rs.map Step.append).foldl pipelineStep
        (pipelineStep s (Step.flush false))) (Step.flush true)).attempts
      = s.attempts ++ [(s.buffer, false), (s.buffer ++ rs, true)] := by
  have hstep : pipelineStep s (Step.flush false)
      = { s with attempts := s.attempts ++ [(s.buffer, false)] } := by
    simp [pipelineStep, h]
  refine ⟨by rw [hstep], by rw [hstep], ?_⟩
  rw [hstep, foldl_appends]
  have hne : s.buffer ++ rs ≠ [] := by
    intro hc
    exact h (List.append_eq_nil.mp hc).1
  simp [pipelineStep, hne]

/-- Witness for C2's amended theorem at a concrete state. -/
theorem db_writer_failed_batch_retried_witness :
    ([r0] : List Reading) ≠ [] ∧
    (pipelineStep ((([r0].map Step.append)).foldl pipelineStep
        (pipelineStep ⟨[r0], []⟩ (Step.flush false))) (Step.flush true)).attempts
      = [([r0], false), ([r0, r0], true)] := by
  refine ⟨by decide, ?_⟩
  have h := db_writer_failed_batch_retried ⟨[r0], []⟩ [r0] (by decide)
  simpa using h.2.2

/-- C4: appending readings `r1, r2, r3` in order to a fresh (empty) buffer and
draining yields exactly `[r1, r2, r3]` in that order; a second drain performed
immediately afterwards — and indeed a re-drain of any drained buffer — yields
the empty sequence. -/
theorem buffer_append_drain_order (r1 r2 r3 : Reading) :
    drain_all (bufferAppend (bufferAppend (bufferAppend [] r1) r2) r3)
      = ([r1, r2, r3], []) ∧
    drain_all
        (drain_all (bufferAppend (bufferAppend (bufferAppend [] r1) r2) r3)).2
      = ([], []) ∧
    ∀ b : List Reading, drain_all (drain_all b).2 = ([], []) := by
  exact ⟨rfl, rfl, fun b => rfl⟩

/-- Observable events of one run of `main` (lines 117–172). -/
inductive Event where
  | connect
  | subscribe
  | startFlush
  | waitCancel
  | unsubscribe
  | cancelFlush
  | disconnect
deriving DecidableEq, Repr

/-- Outcomes of the external calls `main` makes during setup:
`request_session` (None models its failure path returning None), the
`sessions` select resolving the key to ids (`.error` models a raised
exception, the row list may be empty), and `find_device` (None models its
`-1` for device-not-found or no notifiable characteristic). -/
structure Env where
  sessionKeyResult : Option (List Char)
  resolveResult : Except Unit (List Nat)
  findDeviceResult : Option (List Char)
deriving Repr

/-- The event trace of `main` (lines 117–172): each setup failure returns
before anything below it runs; once all four setup steps succeed, the run
connects, subscribes (`start_notify`), starts the `db_writer` task, blocks on
the cancellation event, and on cancellation runs `stop_notify`, then
`writer_task.cancel()`, then the context-manager disconnect, in that order. -/
def mainTrace (env : Env) : List Event :=
  match env.sessionKeyResult with
  | none => []
  | some _ =>
    match env.resolveResult with
    | Except.error _ => []
    | Except.ok rows =>
      match rows with
      | [] => []
      | _ :: _ =>
        match env.findDeviceResult with
        | none => []
        | some _ =>
          [Event.connect, Event.subscribe, Event.startFlush, Event.waitCancel,
            Event.unsubscribe, Event.cancelFlush, Event.disconnect]

/-- C6: any fatal setup failure — session issuance failure, a raised or empty
session resolve, or device/notifiable-channel not found — aborts the run
before the subscription and flush stage: the trace never contains a
`subscribe` or a `startFlush` event. -/
theorem setup_failure_aborts (env : Env)
    (h : env.sessionKeyResult = none ∨ env.resolveResult = Except.error () ∨
      env.resolveResult = Except.ok [] ∨ env.findDeviceResult = none) :
    Event.subscribe ∉ mainTrace env ∧ Event.startFlush ∉ mainTrace env := by
  have htr : mainTrace env = [] := by
    unfold mainTrace
    rcases h with h | h | h | h
    · rw [h]
    · cases hk : env.sessionKeyResult with
      | none => rfl
      | some k => rw [h]
    · cases hk : env.sessionKeyResult with
      | none => rfl
      | some k => rw [h]
    · cases hk : env.sessionKeyResult with
      | none => rfl
      | some k =>
        cases hr : env.resolveResult with
        | error e => rfl
        | ok rows =>
          cases rows with
          | nil => rfl
          | cons sid rest => rw [h]
  rw [htr]
  exact ⟨List.not_mem_nil _, List.not_mem_nil _⟩

/-- Witness for C6 at a concrete environment whose session issuance fails. -/
theorem setup_failure_aborts_witness :
    Event.subscribe ∉ mainTrace ⟨none, Except.ok [], none⟩ ∧
    Event.startFlush ∉ mainTrace ⟨none, Except.ok [], none⟩ :=
  setup_failure_aborts ⟨none, Except.ok [], none⟩ (Or.inl rfl)

/-- C9: when every setup step succeeds, the run reaches the steady state and,
on cancellation, teardown always runs — unsubscribe (`stop_notify`), then
cancel of the flush task, then disconnect — exactly in that order, as the
suffix of the trace after the cancellation wait. -/
theorem teardown_order (env : Env) (k : List Char) (sid : Nat)
    (rest : List Nat) (ch : List Char)
    (hk : env.sessionKeyResult = some k)
    (hr : env.resolveResult = Except.ok (sid :: rest))
    (hd : env.findDeviceResult = some ch) :
    mainTrace env
      = [Event.connect, Event.subscribe, Event.startFlush, Event.waitCancel]
        ++ [Event.unsubscribe, Event.cancelFlush, Event.disconnect] := by
  unfold mainTrace
  rw [hk, hr, hd]
  rfl

/-- Witness for C9 at a concrete fully-successful environment. -/
theorem teardown_order_witness :
    mainTrace ⟨some ['A'], Except.ok [1], some ['u']⟩
      = [Event.connect, Event.subscribe, Event.startFlush, Event.waitCancel]
        ++ [Event.unsubscribe, Event.cancelFlush, Event.disconnect] :=
  teardown_order ⟨some ['A'], Except.ok [1], some ['u']⟩ ['A'] 1 [] ['u']
    rfl rfl rfl

/-- A row of the `sessions` table. -/
structure SessionRow where
  id : Nat
  session_key : List Char
  start_time : Nat
deriving DecidableEq, Repr

/-- A row of the `health_data` table. -/
structure HealthRow where
  session_id : Nat
  timestamp : Nat
  spo2 : Nat
  pulse : Nat
deriving DecidableEq, Repr

/-- The two tables the backend reads (`app.py`). -/
structure DB where
  sessions : List SessionRow
  health_data : List HealthRow
deriving Repr

/-- The descending-timestamp order used by `.order('timestamp', desc=True)`. -/
def tsDesc (a b : HealthRow) : Prop := b.timestamp ≤ a.timestamp

instance : DecidableRel tsDesc := fun a b => Nat.decLe b.timestamp a.timestamp

instance : IsTotal HealthRow tsDesc :=
  ⟨fun a b => (Nat.le_total b.timestamp a.timestamp).imp id id⟩

instance : IsTrans HealthRow tsDesc :=
  ⟨fun _ _ _ hab hbc => Nat.le_trans hbc hab⟩

/-- The session lookup shared by `get_data` (`app.py` lines 48–57) and `main`
(`device_connect_and_parse.py` lines 128–138):
`select('id').eq('session_key', key)` and, when the row list is non-empty,
`session[0]['id']`. -/
def resolve_session (db : DB) (key : List Char) : Option Nat :=
  match db.sessions.filter (fun s => s.session_key = key) with
  | [] => none
  | s :: _ => some s.id

/-- `get_data` (`app.py` lines 42–67): resolve the key — an empty result is
the 404 branch — then
`select('*').eq('session_id', id).order('timestamp', desc=True).limit(50)`. -/
def get_data (db : DB) (key : List Char) : Option (List HealthRow) :=
  match resolve_session db key with
  | none => none
  | some sid =>
    some (((db.health_data.filter (fun h => h.session_id = sid)).insertionSort
      tsDesc).take 50)

/-- C7: a retrieval with an unknown key — one matching no stored session —
yields the not-found response, and a retrieval with a known key yields at most
50 rows, all belonging to the resolved session id, ordered by timestamp
descending. -/
theorem get_data_spec (db : DB) (key : List Char) :
    (resolve_session db key = none ↔
      ∀ s ∈ db.sessions, s.session_key ≠ key) ∧
    (match get_data db key with
     | none => resolve_session db key = none
     | some rows =>
       rows.length ≤ 50 ∧
       (∃ sid, resolve_session db key = some sid ∧
         ∀ h ∈ rows, h.session_id = sid) ∧
       rows.Sorted tsDesc) := by
  constructor
  · unfold resolve_session
    cases hf : db.sessions.filter (fun s => s.session_key = key) with
    | nil =>
      simp only [true_iff]
      intro s hs hkey
      have : s ∈ db.sessions.filter (fun s => s.session_key = key) :=
        List.mem_filter.mpr ⟨hs, by simp [hkey]⟩
      rw [hf] at this
      exact List.not_mem_nil s this
    | cons s rest =>
      have hs : s ∈ db.sessions.filter (fun s => s.session_key = key) := by
        rw [hf]; exact List.mem_cons_self s rest
      have hmem := List.mem_filter.mp hs
      constructor
      · intro hc; cases hc
      · intro hall
        exact ((hall s hmem.1) (by simpa using hmem.2)).elim
  · unfold get_data
    cases hres : resolve_session db key with
    | none => rfl
    | some sid =>
      refine ⟨?_, ⟨sid, rfl, ?_⟩, ?_⟩
      · exact List.length_take_le _ _
      · intro h hmem
        have h1 : h ∈ (db.health_data.filter
            (fun h => h.session_id = sid)).insertionSort tsDesc :=
          List.mem_of_mem_take hmem
        have h2 : h ∈ db.health_data.filter (fun h => h.session_id = sid) :=
          (List.perm_insertionSort tsDesc _).mem_iff.mp h1
        have := (List.mem_filter.mp h2).2
        simpa using this
      · have hsorted : ((db.health_data.filter
            (fun h => h.session_id = sid)).insertionSort tsDesc).Sorted tsDesc :=
          List.sorted_insertionSort tsDesc _
        exact hsorted.sublist (List.take_sublist 50 _)

/-- The key generator in `create_session` (`app.py` line 26):
`str(uuid.uuid4())[:6].upper()`, on the freshly generated UUID string `u`. -/
def create_session_key (u : List Char) : List Char :=
  (u.take 6).map Char.toUpper

/-- The characters that can occur in `str(uuid.uuid4())`: the ten decimal
digits (codes 48–57), the six lowercase hex letters (codes 97–102), and the
hyphen; the string is 36 characters long. -/
def uuidAlphabet : List Char :=
  ((List.range 10).map fun n => Char.ofNat (48 + n)) ++
    ((List.range 6).map fun n => Char.ofNat (97 + n)) ++ ['-']

/-- A concrete UUID-shaped string. -/
def uuidA : List Char :=
  ['0', '4', 'f', '8', 'a', '2', 'c', '9', '-', '7', 'e', '1', 'b', '-',
   '4', 'd', '6', 'f', '-', '8', '3', 'a', '5', '-',
   '9', 'c', '2', 'e', '7', 'b', '4', 'f', '6', '0', '1', '3']

/-- A second UUID-shaped string, distinct from `uuidA` but sharing its first
six characters. -/
def uuidB : List Char :=
  ['0', '4', 'f', '8', 'a', '2', 'c', '9', '-', '7', 'e', '1', 'b', '-',
   '4', 'd', '6', 'f', '-', '8', '3', 'a', '5', '-',
   '9', 'c', '2', 'e', '7', 'b', '4', 'f', '6', '0', '1', '4']

/-- C8 counterexample: two distinct freshly generated UUIDs that agree on
their first six characters make two distinct session-creation calls generate
the same `session_key` — the generator enforces no uniqueness. -/
theorem create_session_key_collision :
    uuidA ≠ uuidB ∧ create_session_key uuidA = create_session_key uuidB := by
  constructor <;> decide

/-- C8 amended: the generated `session_key` is determined by the first six
characters of the fresh UUID alone, so two creation calls whose UUIDs share a
6-character prefix generate equal keys; uniqueness across the session
namespace is not guaranteed by generation. -/
theorem create_session_key_prefix_determined (u1 u2 : List Char)
    (h : u1.take 6 = u2.take 6) :
    create_session_key u1 = create_session_key u2 := by
  unfold create_session_key
  rw [h]

/-- Witness for C8's amended theorem at the two concrete UUIDs. -/
theorem create_session_key_prefix_determined_witness :
    uuidA.take 6 = uuidB.take 6 ∧
    create_session_key uuidA = create_session_key uuidB :=
  ⟨by decide, create_session_key_prefix_determined uuidA uuidB (by decide)⟩

/-- C10: for every UUID string (36 characters over lowercase hex digits and
hyphens), the generated key is the uppercased 6-character prefix, is exactly
6 characters long, and contains no lowercase letter. -/
theorem create_session_key_shape (u : List Char) (hlen : u.length = 36)
    (halph : ∀ c ∈ u, c ∈ uuidAlphabet) :
    create_session_key u = (u.take 6).map Char.toUpper ∧
    (create_session_key u).length = 6 ∧
    ∀ c ∈ create_session_key u, c.isLower = false := by
  refine ⟨rfl, ?_, ?_⟩
  · unfold create_session_key
    rw [List.length_map, List.length_take, hlen]
    decide
  · intro c hc
    unfold create_session_key at hc
    obtain ⟨c', hc', hup⟩ := List.mem_map.mp hc
    have hmem : c' ∈ u := List.mem_of_mem_take hc'
    have halpha : c' ∈ uuidAlphabet := halph c' hmem
    have hnl : ∀ a ∈ uuidAlphabet, (Char.toUpper a).isLower = false := by decide
    rw [← hup]
    exact hnl c' halpha

/-- A concrete 36-character UUID string for the C10 witness. -/
def uuidC : List Char :=
  ['f', '0', '3', '9', 'd', '1', '7', 'a', '-', '5', 'c', '8', '2', '-',
   '4', 'b', '0', 'e', '-', '9', '6', 'd', '3', '-',
   '1', 'f', '7', 'a', '5', '0', 'c', '4', '8', 'b', '2', '6']

/-- Witness for C10 at a concrete UUID string. -/
theorem create_session_key_shape_witness :
    uuidC.length = 36 ∧ (∀ c ∈ uuidC, c ∈ uuidAlphabet) ∧
    ((create_session_key uuidC).length = 6 ∧
      ∀ c ∈ create_session_key uuidC, c.isLower = false) := by
  refine ⟨by decide, by decide, ?_⟩
  have h := create_session_key_shape uuidC (by decide) (by decide)
  exact ⟨h.2.1, h.2.2⟩

end TeleOximeter
